import Mathlib

/-!
Shallow embedding of the asset registry, commit protocol and static-file
serving engine of the self-static-hosting component
(src/component/lib, src/cli/upload.ts, src/client/index.ts).

The registry table `staticAssets` is modelled as a list of rows in creation
order; the Convex index lookup with `.unique()` (which throws when more than
one document matches) is modelled in the `Except` monad.
-/

/-- One row of the `staticAssets` table (system fields omitted: rows are
identified positionally, and `.delete(existing._id)` removes exactly the row
found by the preceding unique lookup). -/
structure Asset where
  path : String
  storageId : String
  contentType : String
  deploymentId : String
deriving Repr, DecidableEq

/-- The `staticAssets` table in creation (insertion) order. -/
abbrev Registry := List Asset

/-- `getByPath`: index lookup `by_path` followed by `.unique()`, which
returns the single match, `null` when there is none, and throws when the
path has several live rows. -/
def getByPath (reg : Registry) (path : String) : Except String (Option Asset) :=
  match reg.filter (fun a => a.path == path) with
  | [] => .ok none
  | [a] => .ok (some a)
  | _ => .error "unique: multiple documents match"

/-- `recordAsset` (component mutation, src/cli/upload.ts lines 386-419 and
dist/component/lib.js lines 44-74): look up the existing row at `path` with
`.unique()`; if found, remember its storageId and delete that row; insert the
new row; return the old storageId or `null`.  Deleting `existing._id` is
modelled by erasing the first row whose path matches, which is exactly the
found row since the unique lookup succeeded. -/
def recordAsset (reg : Registry) (path storageId contentType deploymentId : String) :
    Except String (Option String × Registry) :=
  match getByPath reg path with
  | .error e => .error e
  | .ok none =>
      .ok (none, reg ++ [⟨path, storageId, contentType, deploymentId⟩])
  | .ok (some existing) =>
      .ok (some existing.storageId,
        (reg.eraseP (fun a => a.path == path)) ++ [⟨path, storageId, contentType, deploymentId⟩])

/-- `gcOldAssets` (component mutation, src/cli/upload.ts lines 425-444 and
dist/component/lib.js lines 79-96): walk all rows in order; every row whose
deploymentId differs from the current one has its storageId collected and its
row deleted.  Returns the collected storageIds and the surviving registry. -/
def gcOldAssets (reg : Registry) (currentDeploymentId : String) :
    List String × Registry :=
  match reg with
  | [] => ([], [])
  | a :: rest =>
      let r := gcOldAssets rest currentDeploymentId
      if a.deploymentId == currentDeploymentId then (r.1, a :: r.2)
      else (a.storageId :: r.1, r.2)

/-- `ctx.storage.delete(storageId)` on the app blob store, modelled as removal
from the list of stored blob ids (deleting an absent id is a no-op, matching
the try/catch-ignore in the caller). -/
def storageDelete (blobs : List String) (storageId : String) : List String :=
  blobs.filter (fun b => b != storageId)

/-- The `recordAsset` wrapper produced by `exposeUploadApi`
(src/client/index.ts lines 327-350): run the component mutation, then delete
the returned old storageId from app storage when one was returned. -/
def uploadApiRecordAsset (reg : Registry) (blobs : List String)
    (path storageId contentType deploymentId : String) :
    Except String (Registry × List String) :=
  match recordAsset reg path storageId contentType deploymentId with
  | .error e => .error e
  | .ok (none, reg') => .ok (reg', blobs)
  | .ok (some oldStorageId, reg') => .ok (reg', storageDelete blobs oldStorageId)

/-- Arguments of one `recordAsset` call targeting a fixed path. -/
structure UploadCall where
  storageId : String
  contentType : String
  deploymentId : String
deriving Repr, DecidableEq

/-- Serial sequence of `recordAsset` calls targeting the path `p`,
collecting the returned old storageIds. -/
def runUpserts (p : String) : Registry → List UploadCall →
    Except String (List (Option String) × Registry)
  | reg, [] => .ok ([], reg)
  | reg, c :: cs =>
      match recordAsset reg p c.storageId c.contentType c.deploymentId with
      | .error e => .error e
      | .ok (old, reg') =>
          match runUpserts p reg' cs with
          | .error e => .error e
          | .ok (olds, reg'') => .ok (old :: olds, reg'')


/- ------------------------------------------------------------------ -/
/- Resolution and serving engine (src/client/index.ts)                -/
/- ------------------------------------------------------------------ -/

/-- Fixed setup-instructions page (src/client/index.ts getSetupHtml),
returned when nothing has been deployed.  Braces, quotes and apostrophes of
the original template literal are written as escapes. -/
def getSetupHtml : String :=
  "<!DOCTYPE html>
<html lang=\"en\">
<head>
  <meta charset=\"UTF-8\">
  <meta name=\"viewport\" content=\"width=device-width, initial-scale=1.0\">
  <title>Convex Self Static Hosting</title>
  <style>
    * \x7b box-sizing: border-box; \x7d
    body \x7b
      font-family: -apple-system, BlinkMacSystemFont, \x27Segoe UI\x27, Roboto, sans-serif;
      max-width: 640px;
      margin: 0 auto;
      padding: 40px 20px;
      background: #fafafa;
      color: #333;
      line-height: 1.6;
    \x7d
    h1 \x7b color: #111; margin-bottom: 8px; \x7d
    .subtitle \x7b color: #666; margin-bottom: 32px; \x7d
    code \x7b
      background: #e8e8e8;
      padding: 2px 6px;
      border-radius: 4px;
      font-size: 14px;
    \x7d
    pre \x7b
      background: #1a1a1a;
      color: #f0f0f0;
      padding: 16px;
      border-radius: 8px;
      overflow-x: auto;
      font-size: 14px;
    \x7d
    .step \x7b margin-bottom: 24px; \x7d
    .step-num \x7b
      display: inline-block;
      background: #333;
      color: white;
      width: 24px;
      height: 24px;
      border-radius: 50%;
      text-align: center;
      font-size: 14px;
      line-height: 24px;
      margin-right: 8px;
    \x7d
    a \x7b color: #0070f3; \x7d
  </style>
</head>
<body>
  <h1>Almost there!</h1>
  <p class=\"subtitle\">Your Convex backend is running, but no static files have been deployed yet.</p>

  <div class=\"step\">
    <span class=\"step-num\">1</span>
    <strong>Build your frontend</strong>
    <pre>npm run build</pre>
  </div>

  <div class=\"step\">
    <span class=\"step-num\">2</span>
    <strong>Deploy your static files</strong>
    <pre>npx @get-convex/self-static-hosting deploy</pre>
  </div>

  <p>Or deploy everything in one command:</p>
  <pre>npm run deploy</pre>

  <p style=\"margin-top: 32px; color: #666; font-size: 14px;\">
    Learn more at <a href=\"https://github.com/get-convex/self-static-hosting\">github.com/get-convex/self-static-hosting</a>
  </p>
</body>
</html>"

/-- JS path.split("/") for the one-character separator, at character level
(structural recursion so that it evaluates inside the kernel). -/
def splitOnSlash : List Char → List (List Char)
  | [] => [[]]
  | c :: cs =>
      let r := splitOnSlash cs
      if c == '/' then [] :: r
      else
        match r with
        | [] => [[c]]
        | seg :: rest => (c :: seg) :: rest

/-- JS path.split("/").pop() || "" : the last slash-delimited segment. -/
def lastSegment (path : String) : List Char :=
  ((splitOnSlash path.data).getLast?).getD []

/-- hasFileExtension (src/client/index.ts lines 125-128):
lastSegment.includes(".") && !lastSegment.startsWith(".").
includes(".") is containment of the dot character; startsWith(".") for the
one-character literal is the first-character test. -/
def hasFileExtension (path : String) : Bool :=
  (lastSegment path).contains '.' && !((lastSegment path).head? == some '.')

/-- Character class [-.] of the hashed-asset regex. -/
def isSepChar (c : Char) : Bool := c == '-' || c == '.'

/-- Character class [0-9A-Za-z_] (regex \\dA-Za-z_ inside brackets). -/
def isWordChar (c : Char) : Bool :=
  c.isDigit || c.isUpper || c.isLower || c == '_'

/-- The part of the hashed-asset regex after the separator:
[0-9A-Za-z_]{6,12} then a dot then [a-z]+ then the end of the string.  The
choice of the hash length k in 6..12 mirrors regex backtracking. -/
def hashTail (cs : List Char) : Bool :=
  (List.range' 6 7).any (fun k =>
    ((cs.take k).length == k) && (cs.take k).all isWordChar &&
    ((cs.drop k).head? == some '.') &&
    !(cs.drop (k + 1)).isEmpty && (cs.drop (k + 1)).all Char.isLower)

/-- Existence of a match of the anchored regex [-.][0-9A-Za-z_]{6,12}\.[a-z]+$ :
some suffix starts with the separator and the rest matches up to the end. -/
def matchHashed : List Char → Bool
  | [] => false
  | c :: cs => (isSepChar c && hashTail cs) || matchHashed cs

/-- isHashedAsset (src/client/index.ts lines 134-136): the regex test
/[-.][\dA-Za-z_]{6,12}\.[a-z]+$/.test(path). -/
def isHashedAsset (path : String) : Bool := matchHashed path.data

/-- An HTTP response: status, optional body, headers in emission order. -/
structure Response where
  status : Nat
  body : Option String
  headers : List (String × String)
deriving Repr, DecidableEq

/-- Value of the response header with the given name, if present. -/
def headerValue (r : Response) (name : String) : Option String :=
  (r.headers.find? (fun kv => kv.1 == name)).map (fun kv => kv.2)

/-- Asset lookup of serveStaticFile (src/client/index.ts lines 205-212):
exact getByPath, then the SPA fallback retry at /index.html when nothing was
found, the fallback is enabled and the path has no file extension. -/
def lookupAsset (reg : Registry) (spaFallback : Bool) (path : String) :
    Except String (Option Asset) :=
  match getByPath reg path with
  | .error e => .error e
  | .ok (some a) => .ok (some a)
  | .ok none =>
      if spaFallback && !hasFileExtension path then getByPath reg "/index.html"
      else .ok none

/-- serveStaticFile (src/client/index.ts lines 181-270).  Inputs: the
registry, the blob store (ctx.storage.get), the normalized path prefix, the
spaFallback flag, the request URL pathname and the If-None-Match header.
Outputs the produced HTTP response; a thrown unique-lookup error propagates
in Except. -/
def serveStaticFile (reg : Registry) (storageGet : String → Option String)
    (normalizedPfx : String) (spaFallback : Bool)
    (urlPathname : String) (ifNoneMatch : Option String) :
    Except String Response :=
  let strippedPath :=
    if normalizedPfx != "" && urlPathname.startsWith normalizedPfx then
      (if urlPathname.drop normalizedPfx.length == "" then "/"
       else urlPathname.drop normalizedPfx.length)
    else urlPathname
  let path :=
    if strippedPath == "" || strippedPath == "/" then "/index.html"
    else strippedPath
  match lookupAsset reg spaFallback path with
  | .error e => .error e
  | .ok none =>
      if path == "/index.html" then
        .ok ⟨200, some getSetupHtml, [("Content-Type", "text/html; charset=utf-8")]⟩
      else
        .ok ⟨404, some "Not Found", [("Content-Type", "text/plain")]⟩
  | .ok (some asset) =>
      let etag := "\"" ++ asset.storageId ++ "\""
      let cacheControl :=
        if isHashedAsset path then "public, max-age=31536000, immutable"
        else "public, max-age=0, must-revalidate"
      if ifNoneMatch == some etag then
        .ok ⟨304, none, [("ETag", etag), ("Cache-Control", cacheControl)]⟩
      else
        match storageGet asset.storageId with
        | none => .ok ⟨500, some "Storage error", [("Content-Type", "text/plain")]⟩
        | some blob =>
            .ok ⟨200, some blob,
              [("Content-Type", asset.contentType), ("Cache-Control", cacheControl),
               ("ETag", etag), ("X-Content-Type-Options", "nosniff")]⟩

/-- The hashed-asset convention as the specification words it: the filename
ends with a separator, then 6 to 12 word characters, then a dot, then a
nonempty all-lowercase extension.  Stated as a decomposition of the path;
since none of the matched characters can be a slash, the matched suffix lies
inside the filename. -/
def HashedSpec (path : String) : Prop :=
  ∃ (pre hash ext : List Char) (sep : Char),
    path.data = pre ++ sep :: (hash ++ '.' :: ext)
    ∧ (sep = '-' ∨ sep = '.')
    ∧ 6 ≤ hash.length ∧ hash.length ≤ 12
    ∧ (∀ c ∈ hash, isWordChar c = true)
    ∧ ext ≠ [] ∧ (∀ c ∈ ext, c.isLower = true)

/-- Registry of the SPA-fallback scenario of the spec: assets only at
/index.html and /assets/app.js. -/
def demoRegistry : Registry :=
  [⟨"/index.html", "b1", "text/html; charset=utf-8", "d1"⟩,
   ⟨"/assets/app.js", "b2", "application/javascript; charset=utf-8", "d1"⟩]

/-- Blob store holding the two demo blobs. -/
def demoStore : String → Option String := fun sid =>
  if sid == "b1" then some "INDEX" else if sid == "b2" then some "APP" else none

/- ------------------------------------------------------------------ -/
/- Helper lemmas on the commit protocol                               -/
/- ------------------------------------------------------------------ -/

theorem filter_eraseP (p : α → Bool) (l : List α) :
    (l.eraseP p).filter p = (l.filter p).tail := by
  induction l with
  | nil => rfl
  | cons x xs ih =>
      by_cases hx : p x = true
      · simp [List.eraseP_cons, hx, List.filter_cons]
      · simp only [Bool.not_eq_true] at hx
        simp [List.eraseP_cons, hx, List.filter_cons, ih]

theorem getByPath_ok_none {reg : Registry} {p : String}
    (h : getByPath reg p = .ok none) :
    reg.filter (fun a => a.path == p) = [] := by
  unfold getByPath at h
  split at h
  · assumption
  · simp at h
  · simp at h

theorem getByPath_ok_some {reg : Registry} {p : String} {a : Asset}
    (h : getByPath reg p = .ok (some a)) :
    reg.filter (fun a => a.path == p) = [a] := by
  unfold getByPath at h
  split at h
  · simp at h
  · simp_all
  · simp at h

/-- One `recordAsset` step from a state with at most one live row at `p`:
the call succeeds, returns the storageId of the previously live row (or
`none`), and afterwards the new row is the single live row at `p`. -/
theorem recordAsset_step (reg : Registry) (p sid ct dep : String)
    (h : (reg.filter (fun a => a.path == p)).length ≤ 1) :
    ∃ reg', recordAsset reg p sid ct dep =
        .ok ((reg.filter (fun a => a.path == p)).head?.map Asset.storageId, reg')
      ∧ reg'.filter (fun a => a.path == p) = [⟨p, sid, ct, dep⟩] := by
  cases hf : reg.filter (fun a => a.path == p) with
  | nil =>
      refine ⟨reg ++ [⟨p, sid, ct, dep⟩], ?_, ?_⟩
      · unfold recordAsset getByPath
        rw [hf]
        simp
      · simp [List.filter_append, hf, List.filter_cons]
  | cons a rest =>
      cases rest with
      | nil =>
          refine ⟨(reg.eraseP (fun a => a.path == p)) ++ [⟨p, sid, ct, dep⟩], ?_, ?_⟩
          · unfold recordAsset getByPath
            rw [hf]
            simp
          · have := filter_eraseP (fun a => a.path == p) reg
            rw [hf] at this
            simp [List.filter_append, this, List.filter_cons]
      | cons b rest' => simp [hf] at h

theorem gc_snd_eq_filter (reg : Registry) (X : String) :
    (gcOldAssets reg X).2 = reg.filter (fun a => a.deploymentId == X) := by
  induction reg with
  | nil => rfl
  | cons a rest ih =>
      by_cases hd : (a.deploymentId == X) = true
      · simp [gcOldAssets, hd, List.filter_cons, ih]
      · simp only [Bool.not_eq_true] at hd
        simp [gcOldAssets, hd, List.filter_cons, ih]

theorem gc_fst_eq_map (reg : Registry) (X : String) :
    (gcOldAssets reg X).1 =
      (reg.filter (fun a => a.deploymentId != X)).map Asset.storageId := by
  induction reg with
  | nil => rfl
  | cons a rest ih =>
      by_cases hd : a.deploymentId = X
      · simp [gcOldAssets, hd, List.filter_cons, ih]
      · simp [gcOldAssets, hd, List.filter_cons, ih]

theorem gc_of_all_current (reg : Registry) (X : String)
    (h : ∀ a ∈ reg, a.deploymentId = X) : gcOldAssets reg X = ([], reg) := by
  induction reg with
  | nil => rfl
  | cons a rest ih =>
      have ha : a.deploymentId = X := h a (by simp)
      have hrest := ih (fun b hb => h b (by simp [hb]))
      simp [gcOldAssets, ha, hrest]

/-- C1: for every path `p` and every serial sequence of `recordAsset` calls
targeting `p` (started from a state with at most one live row at `p`, as the
unique-lookup discipline requires), after the last call exactly one live
asset row exists at `p`, its storageId is the one supplied by the most recent
call, and each call returns the previously live row storageId when one
existed and `none` otherwise. -/
theorem C1_upsert_single_live_row (reg : Registry) (p : String)
    (cs : List UploadCall) (c : UploadCall)
    (h : (reg.filter (fun a => a.path == p)).length ≤ 1) :
    ∃ reg', runUpserts p reg (cs ++ [c]) =
        .ok ((reg.filter (fun a => a.path == p)).head?.map Asset.storageId
              :: cs.map (fun d => some d.storageId), reg')
      ∧ reg'.filter (fun a => a.path == p) =
          [⟨p, c.storageId, c.contentType, c.deploymentId⟩] := by
  induction cs generalizing reg with
  | nil =>
      obtain ⟨reg', hrec, hfilt⟩ :=
        recordAsset_step reg p c.storageId c.contentType c.deploymentId h
      refine ⟨reg', ?_, hfilt⟩
      simp [runUpserts, hrec]
  | cons d ds ih =>
      obtain ⟨reg₁, hrec, hfilt₁⟩ :=
        recordAsset_step reg p d.storageId d.contentType d.deploymentId h
      have h₁ : (reg₁.filter (fun a => a.path == p)).length ≤ 1 := by
        rw [hfilt₁]; exact Nat.le_refl 1
      obtain ⟨reg', hrun, hfilt'⟩ := ih reg₁ h₁
      rw [hfilt₁] at hrun
      refine ⟨reg', ?_, hfilt'⟩
      show runUpserts p reg (d :: (ds ++ [c])) = _
      unfold runUpserts
      rw [hrec]
      simp [hrun]

theorem C1_upsert_single_live_row_witness :
    ∃ reg', runUpserts "/x" []
        ([⟨"b1", "text/plain", "d1"⟩] ++ [⟨"b2", "text/plain", "d2"⟩]) =
        .ok ([none, some "b1"], reg')
      ∧ reg'.filter (fun a => a.path == "/x") =
          [⟨"/x", "b2", "text/plain", "d2"⟩] := by
  have h := C1_upsert_single_live_row [] "/x"
    [⟨"b1", "text/plain", "d1"⟩] ⟨"b2", "text/plain", "d2"⟩ (by simp)
  simpa using h

/-- C2: after `gcOldAssets X` no row with a different deploymentId remains
live, every row with deploymentId `X` remains live and unchanged (the
surviving registry is exactly the in-order sublist of current-deployment
rows), and the returned list is exactly the storageIds of the deleted rows
(so it has the same cardinality and membership as the deleted set). -/
theorem C2_finalize_completeness (reg : Registry) (X : String) :
    (∀ a ∈ (gcOldAssets reg X).2, a.deploymentId = X)
    ∧ (gcOldAssets reg X).2 = reg.filter (fun a => a.deploymentId == X)
    ∧ (gcOldAssets reg X).1 =
        (reg.filter (fun a => a.deploymentId != X)).map Asset.storageId
    ∧ (gcOldAssets reg X).1.length =
        (reg.filter (fun a => a.deploymentId != X)).length := by
  refine ⟨?_, gc_snd_eq_filter reg X, gc_fst_eq_map reg X, ?_⟩
  · intro a ha
    rw [gc_snd_eq_filter] at ha
    have := List.of_mem_filter ha
    simpa using this
  · rw [gc_fst_eq_map]
    simp

/-- C9: running `gcOldAssets X` twice in a row with no intervening mutation
makes the second call return the empty list and leave the registry unchanged. -/
theorem C9_idempotent_refinalize (reg : Registry) (X : String) :
    gcOldAssets (gcOldAssets reg X).2 X = ([], (gcOldAssets reg X).2) := by
  apply gc_of_all_current
  intro a ha
  rw [gc_snd_eq_filter] at ha
  have := List.of_mem_filter ha
  simpa using this

/-- C10: when the live row at `p` already has storageId `b`, calling
`recordAsset p b ...` returns `some b` (not `none`); the `exposeUploadApi`
wrapper therefore deletes blob `b` from app storage even though the freshly
inserted live row at `p` still references `b`. -/
theorem C10_reupload_same_storage_id (reg : Registry) (blobs : List String)
    (p b ct dep : String) (a : Asset)
    (hfind : getByPath reg p = .ok (some a)) (hsid : a.storageId = b) :
    (∃ reg₁, recordAsset reg p b ct dep = .ok (some b, reg₁)
       ∧ reg₁.filter (fun x => x.path == p) = [⟨p, b, ct, dep⟩])
    ∧ ∃ reg' blobs',
        uploadApiRecordAsset reg blobs p b ct dep = .ok (reg', blobs')
        ∧ reg'.filter (fun x => x.path == p) = [⟨p, b, ct, dep⟩]
        ∧ b ∉ blobs' := by
  have hfilt : reg.filter (fun x => x.path == p) = [a] := getByPath_ok_some hfind
  have herase : ((reg.eraseP (fun x => x.path == p))
      ++ [(⟨p, b, ct, dep⟩ : Asset)]).filter (fun x => x.path == p)
      = [⟨p, b, ct, dep⟩] := by
    have := filter_eraseP (fun x => x.path == p) reg
    rw [hfilt] at this
    simp [List.filter_append, this, List.filter_cons]
  have hrec : recordAsset reg p b ct dep =
      .ok (some b, (reg.eraseP (fun x => x.path == p)) ++ [⟨p, b, ct, dep⟩]) := by
    unfold recordAsset
    rw [hfind]
    simp [hsid]
  refine ⟨⟨_, hrec, herase⟩, _, storageDelete blobs b, ?_, herase, ?_⟩
  · unfold uploadApiRecordAsset
    rw [hrec]
  · intro hmem
    have := List.of_mem_filter hmem
    simp at this

theorem C10_reupload_same_storage_id_witness :
    (∃ reg₁, recordAsset [⟨"/x", "b", "text/plain", "d1"⟩] "/x" "b" "text/plain" "d2" =
        .ok (some "b", reg₁)
       ∧ reg₁.filter (fun x => x.path == "/x") = [⟨"/x", "b", "text/plain", "d2"⟩])
    ∧ ∃ reg' blobs',
        uploadApiRecordAsset [⟨"/x", "b", "text/plain", "d1"⟩] ["b"] "/x" "b" "text/plain" "d2" =
          .ok (reg', blobs')
        ∧ reg'.filter (fun x => x.path == "/x") = [⟨"/x", "b", "text/plain", "d2"⟩]
        ∧ "b" ∉ blobs' :=
  C10_reupload_same_storage_id [⟨"/x", "b", "text/plain", "d1"⟩] ["b"]
    "/x" "b" "text/plain" "d2" ⟨"/x", "b", "text/plain", "d1"⟩ (by rfl) (by rfl)

/- ------------------------------------------------------------------ -/
/- Helper lemmas on the serving engine                                -/
/- ------------------------------------------------------------------ -/

theorem serve_found_304 (reg : Registry) (store : String → Option String)
    (spa : Bool) (p : String) (a : Asset)
    (hl : lookupAsset reg spa p = .ok (some a)) (h1 : p ≠ "") (h2 : p ≠ "/") :
    serveStaticFile reg store "" spa p (some ("\"" ++ a.storageId ++ "\"")) =
      .ok ⟨304, none, [("ETag", "\"" ++ a.storageId ++ "\""),
        ("Cache-Control", if isHashedAsset p then "public, max-age=31536000, immutable"
          else "public, max-age=0, must-revalidate")]⟩ := by
  have e1 : (p == "") = false := by simp [h1]
  have e2 : (p == "/") = false := by simp [h2]
  simp [serveStaticFile, e1, e2, hl]

theorem serve_found_200 (reg : Registry) (store : String → Option String)
    (spa : Bool) (p : String) (inm : Option String) (a : Asset) (blob : String)
    (hl : lookupAsset reg spa p = .ok (some a)) (h1 : p ≠ "") (h2 : p ≠ "/")
    (hinm : inm ≠ some ("\"" ++ a.storageId ++ "\""))
    (hstore : store a.storageId = some blob) :
    serveStaticFile reg store "" spa p inm =
      .ok ⟨200, some blob,
        [("Content-Type", a.contentType),
         ("Cache-Control", if isHashedAsset p then "public, max-age=31536000, immutable"
           else "public, max-age=0, must-revalidate"),
         ("ETag", "\"" ++ a.storageId ++ "\""),
         ("X-Content-Type-Options", "nosniff")]⟩ := by
  have e1 : (p == "") = false := by simp [h1]
  have e2 : (p == "/") = false := by simp [h2]
  have e3 : (inm == some ("\"" ++ a.storageId ++ "\"")) = false := by simp [hinm]
  simp [serveStaticFile, e1, e2, e3, hl, hstore]

theorem serve_found_500 (reg : Registry) (store : String → Option String)
    (spa : Bool) (p : String) (inm : Option String) (a : Asset)
    (hl : lookupAsset reg spa p = .ok (some a)) (h1 : p ≠ "") (h2 : p ≠ "/")
    (hinm : inm ≠ some ("\"" ++ a.storageId ++ "\""))
    (hstore : store a.storageId = none) :
    serveStaticFile reg store "" spa p inm =
      .ok ⟨500, some "Storage error", [("Content-Type", "text/plain")]⟩ := by
  have e1 : (p == "") = false := by simp [h1]
  have e2 : (p == "/") = false := by simp [h2]
  have e3 : (inm == some ("\"" ++ a.storageId ++ "\"")) = false := by simp [hinm]
  simp [serveStaticFile, e1, e2, e3, hl, hstore]

theorem serve_none_404 (reg : Registry) (store : String → Option String)
    (spa : Bool) (p : String) (inm : Option String)
    (hl : lookupAsset reg spa p = .ok none) (h1 : p ≠ "") (h2 : p ≠ "/")
    (h3 : p ≠ "/index.html") :
    serveStaticFile reg store "" spa p inm =
      .ok ⟨404, some "Not Found", [("Content-Type", "text/plain")]⟩ := by
  have e1 : (p == "") = false := by simp [h1]
  have e2 : (p == "/") = false := by simp [h2]
  have e3 : (p == "/index.html") = false := by simp [h3]
  simp [serveStaticFile, e1, e2, e3, hl]

theorem serve_empty_root_setup (store : String → Option String)
    (spa : Bool) (inm : Option String) :
    serveStaticFile [] store "" spa "/" inm =
      .ok ⟨200, some getSetupHtml, [("Content-Type", "text/html; charset=utf-8")]⟩ := by
  have hlook : lookupAsset [] spa "/index.html" = .ok none := by
    unfold lookupAsset getByPath
    simp [hasFileExtension]
  simp [serveStaticFile, hlook]

theorem isSepChar_iff (c : Char) : isSepChar c = true ↔ c = '-' ∨ c = '.' := by
  simp [isSepChar]

theorem hashTail_iff (cs : List Char) :
    hashTail cs = true ↔ ∃ hash ext : List Char,
      cs = hash ++ '.' :: ext ∧ 6 ≤ hash.length ∧ hash.length ≤ 12
      ∧ (∀ c ∈ hash, isWordChar c = true) ∧ ext ≠ []
      ∧ (∀ c ∈ ext, c.isLower = true) := by
  unfold hashTail
  rw [List.any_eq_true]
  constructor
  · rintro ⟨k, hk, hcond⟩
    rw [List.mem_range'_1] at hk
    simp only [Bool.and_eq_true, beq_iff_eq, Bool.not_eq_true',
      List.all_eq_true] at hcond
    obtain ⟨⟨⟨⟨hlen, hword⟩, hdot⟩, hne⟩, hlow⟩ := hcond
    obtain ⟨t, ht⟩ : ∃ t, cs.drop k = '.' :: t := by
      cases hh : cs.drop k with
      | nil => rw [hh] at hdot; simp at hdot
      | cons x xs =>
          rw [hh] at hdot
          simp at hdot
          exact ⟨xs, by rw [hdot]⟩
    have htail : cs.drop (k + 1) = t := by
      have := List.tail_drop cs k
      rw [ht] at this
      simpa using this.symm
    refine ⟨cs.take k, t, ?_, ?_, ?_, hword, ?_, ?_⟩
    · conv_lhs => rw [← List.take_append_drop k cs]
      rw [ht]
    · rw [hlen]; exact hk.1
    · rw [hlen]; omega
    · intro hcontra
      rw [htail, hcontra] at hne
      simp at hne
    · rw [htail] at hlow; exact hlow
  · rintro ⟨hash, ext, hcs, h6, h12, hword, hne, hlow⟩
    refine ⟨hash.length, ?_, ?_⟩
    · rw [List.mem_range'_1]; omega
    · have htake : cs.take hash.length = hash := by
        rw [hcs]; exact List.take_left hash ('.' :: ext)
      have hdrop : cs.drop hash.length = '.' :: ext := by
        rw [hcs]; exact List.drop_left hash ('.' :: ext)
      have hdrop1 : cs.drop (hash.length + 1) = ext := by
        have := List.tail_drop cs hash.length
        rw [hdrop] at this
        simpa using this.symm
      simp only [htake, hdrop, hdrop1]
      simp [List.all_eq_true, List.isEmpty_iff, hne]
      exact ⟨hword, hlow⟩

theorem matchHashed_iff (cs : List Char) :
    matchHashed cs = true ↔ ∃ (pre rest : List Char) (sep : Char),
      cs = pre ++ sep :: rest ∧ isSepChar sep = true ∧ hashTail rest = true := by
  induction cs with
  | nil =>
      simp only [matchHashed]
      constructor
      · intro h; simp at h
      · rintro ⟨pre, rest, sep, hcs, -, -⟩
        exact absurd hcs (by simp)
  | cons c cs ih =>
      simp only [matchHashed, Bool.or_eq_true, Bool.and_eq_true, ih]
      constructor
      · rintro (⟨hsep, htail⟩ | ⟨pre, rest, sep, hcs, hsep, htail⟩)
        · exact ⟨[], cs, c, rfl, hsep, htail⟩
        · exact ⟨c :: pre, rest, sep, by rw [hcs]; rfl, hsep, htail⟩
      · rintro ⟨pre, rest, sep, hcs, hsep, htail⟩
        cases pre with
        | nil =>
            simp only [List.nil_append, List.cons.injEq] at hcs
            exact Or.inl ⟨hcs.1 ▸ hsep, hcs.2 ▸ htail⟩
        | cons p pre' =>
            simp only [List.cons_append, List.cons.injEq] at hcs
            exact Or.inr ⟨pre', rest, sep, hcs.2, hsep, htail⟩

theorem isHashedAsset_iff_HashedSpec (path : String) :
    isHashedAsset path = true ↔ HashedSpec path := by
  unfold isHashedAsset HashedSpec
  rw [matchHashed_iff]
  constructor
  · rintro ⟨pre, rest, sep, hcs, hsep, htail⟩
    rw [hashTail_iff] at htail
    obtain ⟨hash, ext, hrest, h6, h12, hword, hne, hlow⟩ := htail
    exact ⟨pre, hash, ext, sep, by rw [hcs, hrest], (isSepChar_iff sep).mp hsep,
      h6, h12, hword, hne, hlow⟩
  · rintro ⟨pre, hash, ext, sep, hcs, hsep, h6, h12, hword, hne, hlow⟩
    refine ⟨pre, hash ++ '.' :: ext, sep, hcs, (isSepChar_iff sep).mpr hsep, ?_⟩
    rw [hashTail_iff]
    exact ⟨hash, ext, rfl, h6, h12, hword, hne, hlow⟩

/- ------------------------------------------------------------------ -/
/- Remaining claim theorems                                           -/
/- ------------------------------------------------------------------ -/

/-- C3 (counterexample): the claim "hasFileExtension is true iff the last
slash-delimited segment contains a dot at some index greater than zero" is
false: on "/.env.local" the last segment has a dot at index 4, yet the
function returns false because the segment starts with a dot. -/
theorem C3_counterexample :
    ¬ (∀ path : String, hasFileExtension path = true ↔
        ∃ i : Nat, 0 < i ∧ (lastSegment path)[i]? = some ('.' : Char)) := by
  intro h
  have htrue : hasFileExtension "/.env.local" = true :=
    (h "/.env.local").mpr ⟨4, by decide, by rfl⟩
  have hfalse : hasFileExtension "/.env.local" = false := by rfl
  exact absurd (hfalse.symm.trans htrue) Bool.false_ne_true

/-- C3 (amended): hasFileExtension is true iff the last slash-delimited
segment contains a dot at some index and its first character is not a dot. -/
theorem C3_amended_has_file_extension (path : String) :
    hasFileExtension path = true ↔
      ((∃ i : Nat, (lastSegment path)[i]? = some ('.' : Char))
        ∧ ¬ (lastSegment path)[0]? = some ('.' : Char)) := by
  unfold hasFileExtension
  rw [Bool.and_eq_true]
  have hh : (lastSegment path).head? = (lastSegment path)[0]? := by
    cases lastSegment path <;> simp
  constructor
  · rintro ⟨hc, hs⟩
    refine ⟨?_, ?_⟩
    · have hmem : ('.' : Char) ∈ lastSegment path := by simpa using hc
      exact List.mem_iff_getElem?.mp hmem
    · rw [← hh]
      simpa using hs
  · rintro ⟨⟨i, hi⟩, hs⟩
    refine ⟨?_, ?_⟩
    · have hmem : ('.' : Char) ∈ lastSegment path :=
        List.mem_iff_getElem?.mpr ⟨i, hi⟩
      simpa using hmem
    · rw [← hh] at hs
      simpa using hs

/-- C4: with spaFallback enabled and assets only at /index.html and
/assets/app.js, resolving /about (no file extension) serves the /index.html
asset while resolving /assets/missing.js (has an extension) gives 404; in
general a failed exact lookup is retried at /index.html exactly when the
fallback is enabled and the path has no file extension. -/
theorem C4_spa_fallback :
    (serveStaticFile demoRegistry demoStore "" true "/about" none =
      .ok ⟨200, some "INDEX",
        [("Content-Type", "text/html; charset=utf-8"),
         ("Cache-Control", "public, max-age=0, must-revalidate"),
         ("ETag", "\"b1\""), ("X-Content-Type-Options", "nosniff")]⟩)
    ∧ (serveStaticFile demoRegistry demoStore "" true "/assets/missing.js" none =
        .ok ⟨404, some "Not Found", [("Content-Type", "text/plain")]⟩)
    ∧ (∀ (reg : Registry) (spa : Bool) (p : String),
        getByPath reg p = .ok none → (spa && !hasFileExtension p) = true →
          lookupAsset reg spa p = getByPath reg "/index.html")
    ∧ (∀ (reg : Registry) (spa : Bool) (p : String),
        getByPath reg p = .ok none → (spa && !hasFileExtension p) = false →
          lookupAsset reg spa p = .ok none) := by
  refine ⟨by rfl, by rfl, ?_, ?_⟩
  · intro reg spa p hnone hcond
    simp [lookupAsset, hnone, hcond]
  · intro reg spa p hnone hcond
    simp [lookupAsset, hnone, hcond]

theorem C4_spa_fallback_witness :
    lookupAsset demoRegistry true "/about" = getByPath demoRegistry "/index.html" :=
  C4_spa_fallback.2.2.1 demoRegistry true "/about" (by rfl) (by rfl)

/-- C5: for a deployed path whose asset has storageId b (and whose blob is
present in storage), a request with If-None-Match equal to the quoted
storageId gets 304 with no body but with ETag and Cache-Control headers;
any other If-None-Match value (including absent) gets 200 with the blob
bytes and the same ETag. -/
theorem C5_conditional_request (reg : Registry) (store : String → Option String)
    (spa : Bool) (p : String) (inm : Option String) (a : Asset) (blob : String)
    (hfind : getByPath reg p = .ok (some a)) (h1 : p ≠ "") (h2 : p ≠ "/")
    (hstore : store a.storageId = some blob) :
    (serveStaticFile reg store "" spa p (some ("\"" ++ a.storageId ++ "\"")) =
      .ok ⟨304, none, [("ETag", "\"" ++ a.storageId ++ "\""),
        ("Cache-Control", if isHashedAsset p then "public, max-age=31536000, immutable"
          else "public, max-age=0, must-revalidate")]⟩)
    ∧ (inm ≠ some ("\"" ++ a.storageId ++ "\"") →
        serveStaticFile reg store "" spa p inm =
          .ok ⟨200, some blob,
            [("Content-Type", a.contentType),
             ("Cache-Control", if isHashedAsset p then "public, max-age=31536000, immutable"
               else "public, max-age=0, must-revalidate"),
             ("ETag", "\"" ++ a.storageId ++ "\""),
             ("X-Content-Type-Options", "nosniff")]⟩) := by
  have hl : lookupAsset reg spa p = .ok (some a) := by simp [lookupAsset, hfind]
  exact ⟨serve_found_304 reg store spa p a hl h1 h2,
    fun hinm => serve_found_200 reg store spa p inm a blob hl h1 h2 hinm hstore⟩

theorem C5_conditional_request_witness :
    (serveStaticFile demoRegistry demoStore "" true "/index.html"
        (some ("\"" ++ "b1" ++ "\"")) =
      .ok ⟨304, none, [("ETag", "\"" ++ "b1" ++ "\""),
        ("Cache-Control", if isHashedAsset "/index.html" then "public, max-age=31536000, immutable"
          else "public, max-age=0, must-revalidate")]⟩)
    ∧ (none ≠ some ("\"" ++ "b1" ++ "\"") →
        serveStaticFile demoRegistry demoStore "" true "/index.html" none =
          .ok ⟨200, some "INDEX",
            [("Content-Type", "text/html; charset=utf-8"),
             ("Cache-Control", if isHashedAsset "/index.html" then "public, max-age=31536000, immutable"
               else "public, max-age=0, must-revalidate"),
             ("ETag", "\"" ++ "b1" ++ "\""),
             ("X-Content-Type-Options", "nosniff")]⟩) :=
  C5_conditional_request demoRegistry demoStore true "/index.html" none
    ⟨"/index.html", "b1", "text/html; charset=utf-8", "d1"⟩ "INDEX"
    (by rfl) (by decide) (by decide) (by rfl)

/-- C6 (counterexample): the claim "every response with status 200 or 304
carries the immutable Cache-Control directive iff the path matches the
hashed-asset pattern, and otherwise the must-revalidate directive" fails on
the bootstrap setup page: resolving / on an empty registry yields a 200
response that carries no Cache-Control header at all. -/
theorem C6_counterexample :
    ¬ (∀ (reg : Registry) (store : String → Option String) (spa : Bool)
        (p : String) (inm : Option String) (resp : Response),
        serveStaticFile reg store "" spa p inm = .ok resp →
        (resp.status = 200 ∨ resp.status = 304) →
        (headerValue resp "Cache-Control" =
            some "public, max-age=31536000, immutable" ↔ HashedSpec p)
        ∧ (¬ HashedSpec p → headerValue resp "Cache-Control" =
            some "public, max-age=0, must-revalidate")) := by
  intro h
  have hserve : serveStaticFile [] (fun _ => none) "" true "/" none =
      .ok ⟨200, some getSetupHtml, [("Content-Type", "text/html; charset=utf-8")]⟩ := by
    rfl
  have hspec : ¬ HashedSpec "/" := fun hs => by
    have := (isHashedAsset_iff_HashedSpec "/").mpr hs
    exact absurd this (by decide)
  have hcc := (h [] (fun _ => none) true "/" none
      ⟨200, some getSetupHtml, [("Content-Type", "text/html; charset=utf-8")]⟩
      hserve (Or.inl rfl)).2 hspec
  simp [headerValue] at hcc

/-- C6 (amended): for every request resolved to a registry asset and served
with status 200 or 304 (this excludes the bootstrap setup page, which is a
200 without any Cache-Control header), the Cache-Control header is the
one-year immutable directive iff the request path matches the hashed-asset
pattern, and is the zero-max-age must-revalidate directive otherwise. -/
theorem C6_amended_cache_control (reg : Registry) (store : String → Option String)
    (spa : Bool) (p : String) (inm : Option String) (a : Asset) (resp : Response)
    (hl : lookupAsset reg spa p = .ok (some a)) (h1 : p ≠ "") (h2 : p ≠ "/")
    (hresp : serveStaticFile reg store "" spa p inm = .ok resp)
    (hst : resp.status = 200 ∨ resp.status = 304) :
    (headerValue resp "Cache-Control" =
        some "public, max-age=31536000, immutable" ↔ HashedSpec p)
    ∧ (headerValue resp "Cache-Control" =
        some "public, max-age=0, must-revalidate" ↔ ¬ HashedSpec p) := by
  have key : headerValue resp "Cache-Control" =
      some (if isHashedAsset p then "public, max-age=31536000, immutable"
        else "public, max-age=0, must-revalidate") := by
    by_cases hinm : inm = some ("\"" ++ a.storageId ++ "\"")
    · subst hinm
      have hs := serve_found_304 reg store spa p a hl h1 h2
      rw [hs] at hresp
      obtain rfl : _ = resp := Except.ok.inj hresp
      simp [headerValue]
    · cases hstore : store a.storageId with
      | none =>
          have hs := serve_found_500 reg store spa p inm a hl h1 h2 hinm hstore
          rw [hs] at hresp
          obtain rfl : _ = resp := Except.ok.inj hresp
          simp at hst
      | some blob =>
          have hs := serve_found_200 reg store spa p inm a blob hl h1 h2 hinm hstore
          rw [hs] at hresp
          obtain rfl : _ = resp := Except.ok.inj hresp
          simp [headerValue]
  by_cases hH : isHashedAsset p = true
  · have hspec : HashedSpec p := (isHashedAsset_iff_HashedSpec p).mp hH
    rw [key, if_pos hH]
    constructor
    · simp [hspec]
    · constructor
      · intro habs
        exact absurd (Option.some.inj habs) (by decide)
      · intro habs
        exact absurd hspec habs
  · have hspec : ¬ HashedSpec p :=
      fun hs => hH ((isHashedAsset_iff_HashedSpec p).mpr hs)
    rw [key, if_neg hH]
    constructor
    · constructor
      · intro habs
        exact absurd (Option.some.inj habs).symm (by decide)
      · intro hs
        exact absurd hs hspec
    · simp [hspec]

theorem C6_amended_cache_control_witness :
    (headerValue ⟨304, none, [("ETag", "\"" ++ "b1" ++ "\""),
        ("Cache-Control", if isHashedAsset "/index.html" then "public, max-age=31536000, immutable"
          else "public, max-age=0, must-revalidate")]⟩ "Cache-Control" =
        some "public, max-age=31536000, immutable" ↔ HashedSpec "/index.html")
    ∧ (headerValue ⟨304, none, [("ETag", "\"" ++ "b1" ++ "\""),
        ("Cache-Control", if isHashedAsset "/index.html" then "public, max-age=31536000, immutable"
          else "public, max-age=0, must-revalidate")]⟩ "Cache-Control" =
        some "public, max-age=0, must-revalidate" ↔ ¬ HashedSpec "/index.html") :=
  C6_amended_cache_control demoRegistry demoStore true "/index.html"
    (some ("\"" ++ "b1" ++ "\""))
    ⟨"/index.html", "b1", "text/html; charset=utf-8", "d1"⟩
    ⟨304, none, [("ETag", "\"" ++ "b1" ++ "\""),
      ("Cache-Control", if isHashedAsset "/index.html" then "public, max-age=31536000, immutable"
        else "public, max-age=0, must-revalidate")]⟩
    (by rfl) (by decide) (by decide) (by rfl) (Or.inr rfl)

/-- C7 (counterexample): the claim "every request resolving to an asset row
whose blob the store reports absent returns status 500" fails for
conditional requests: with a matching If-None-Match header the engine
returns 304 without ever consulting the blob store. -/
theorem C7_counterexample :
    ¬ (∀ (reg : Registry) (store : String → Option String) (spa : Bool)
        (p : String) (inm : Option String) (a : Asset) (resp : Response),
        lookupAsset reg spa p = .ok (some a) → store a.storageId = none →
        serveStaticFile reg store "" spa p inm = .ok resp →
        resp.status = 500) := by
  intro h
  have h304 := h [⟨"/a.txt", "b1", "text/plain", "d1"⟩] (fun _ => none) true
      "/a.txt" (some "\"b1\"") ⟨"/a.txt", "b1", "text/plain", "d1"⟩
      ⟨304, none, [("ETag", "\"b1\""),
        ("Cache-Control", "public, max-age=0, must-revalidate")]⟩
      (by rfl) rfl (by rfl)
  exact absurd h304 (by decide)

/-- C7 (amended): for every request that resolves to an asset row whose blob
the store reports absent and whose If-None-Match header does not match the
ETag (a matching conditional request short-circuits to 304 before the store
is consulted), the engine returns 500 with a plain-text body and in
particular never a 200. -/
theorem C7_amended_dangling_returns_500 (reg : Registry)
    (store : String → Option String) (spa : Bool) (p : String)
    (inm : Option String) (a : Asset)
    (hl : lookupAsset reg spa p = .ok (some a)) (h1 : p ≠ "") (h2 : p ≠ "/")
    (hstore : store a.storageId = none)
    (hinm : inm ≠ some ("\"" ++ a.storageId ++ "\"")) :
    serveStaticFile reg store "" spa p inm =
      .ok ⟨500, some "Storage error", [("Content-Type", "text/plain")]⟩
    ∧ ∀ resp : Response, serveStaticFile reg store "" spa p inm = .ok resp →
        resp.status ≠ 200 := by
  have h500 := serve_found_500 reg store spa p inm a hl h1 h2 hinm hstore
  refine ⟨h500, ?_⟩
  intro resp hresp
  rw [h500] at hresp
  obtain rfl : _ = resp := Except.ok.inj hresp
  decide

theorem C7_amended_dangling_returns_500_witness :
    serveStaticFile [⟨"/a.txt", "b1", "text/plain", "d1"⟩] (fun _ => none) ""
        true "/a.txt" none =
      .ok ⟨500, some "Storage error", [("Content-Type", "text/plain")]⟩
    ∧ ∀ resp : Response,
        serveStaticFile [⟨"/a.txt", "b1", "text/plain", "d1"⟩] (fun _ => none) ""
          true "/a.txt" none = .ok resp → resp.status ≠ 200 :=
  C7_amended_dangling_returns_500 [⟨"/a.txt", "b1", "text/plain", "d1"⟩]
    (fun _ => none) true "/a.txt" none ⟨"/a.txt", "b1", "text/plain", "d1"⟩
    (by rfl) (by decide) (by decide) rfl (by decide)

/-- C8: with an empty registry, resolving / (rewritten to /index.html)
returns 200 with the fixed setup-instructions page; and resolving any path
for which neither the exact lookup nor the fallback finds an asset and which
is not /index.html itself returns 404 with a plain-text body. -/
theorem C8_bootstrap_and_404 :
    (∀ (store : String → Option String) (spa : Bool) (inm : Option String),
      serveStaticFile [] store "" spa "/" inm =
        .ok ⟨200, some getSetupHtml, [("Content-Type", "text/html; charset=utf-8")]⟩)
    ∧ (∀ (reg : Registry) (store : String → Option String) (spa : Bool)
        (p : String) (inm : Option String),
        lookupAsset reg spa p = .ok none → p ≠ "" → p ≠ "/" → p ≠ "/index.html" →
        serveStaticFile reg store "" spa p inm =
          .ok ⟨404, some "Not Found", [("Content-Type", "text/plain")]⟩) :=
  ⟨fun store spa inm => serve_empty_root_setup store spa inm,
   fun reg store spa p inm hl h1 h2 h3 => serve_none_404 reg store spa p inm hl h1 h2 h3⟩

theorem C8_bootstrap_and_404_witness :
    serveStaticFile [] demoStore "" true "/nope.txt" none =
      .ok ⟨404, some "Not Found", [("Content-Type", "text/plain")]⟩ :=
  C8_bootstrap_and_404.2 [] demoStore true "/nope.txt" none
    (by rfl) (by decide) (by decide) (by decide)
